import Mathlib

/-!
Shallow embedding of `src/optimization/mimicking.py` (mimic training of
Mask R-CNN): boxes, the student proposal layer (box-delta application,
clipping, non-max suppression with zero padding), the pyramid-level
assignment heuristic, the mimic-loss aggregator with TensorFlow float
semantics for degenerate means, the image-size divisibility check of
`MimicMaskRCNN.build`, and the layer-name/trainability discipline of
`MimicMaskRCNN.train`.

Real-valued tensor arithmetic is modelled over `ℚ` where the code only
adds, multiplies, compares, floors and ceils (exact in every binary
floating-point format for the properties at issue), and over `ℝ` where
the code calls `exp`, `sqrt` or `log` (`s_apply_box_deltas_graph` and
the pyramid-level formula).  A TensorFlow scalar that may be NaN/Inf is
modelled as `Option ℚ` with `none` for the non-finite case: the mean of
an empty tensor (`tf.reduce_mean` over zero elements) is 0/0 = NaN, and
NaN propagates through addition and division.
-/

namespace MimicRCNN

/-- A box in normalized (y1, x1, y2, x2) coordinates, as produced and
consumed throughout `mimicking.py`. -/
structure Box where
  y1 : ℚ
  x1 : ℚ
  y2 : ℚ
  x2 : ℚ
deriving DecidableEq, Repr

/-- The all-zero padding box used by `tf.pad` in `s_nms` and in the
mimic-loss per-level padding. -/
def zeroBox : Box := ⟨0, 0, 0, 0⟩

/-- Signed box area `(y2 - y1) * (x2 - x1)` as in TensorFlow's NMS kernel. -/
def areaQ (b : Box) : ℚ := (b.y2 - b.y1) * (b.x2 - b.x1)

/-- Intersection area of two boxes, clamped at zero in each dimension
(TensorFlow NMS kernel). -/
def interQ (a b : Box) : ℚ :=
  max 0 (min a.y2 b.y2 - max a.y1 b.y1) * max 0 (min a.x2 b.x2 - max a.x1 b.x1)

/-- Intersection-over-union as computed by TensorFlow's
`non_max_suppression` kernel: 0 whenever either area is non-positive,
otherwise intersection over union. -/
def iouQ (a b : Box) : ℚ :=
  if areaQ a ≤ 0 ∨ areaQ b ≤ 0 then 0
  else interQ a b / (areaQ a + areaQ b - interQ a b)

/-- Greedy NMS selection loop of `tf.image.non_max_suppression`: walk the
candidates in descending-score order (at the `s_nms` call site the boxes
arrive already sorted by `tf.nn.top_k`), keep a candidate iff its IoU with
every previously selected box is not strictly greater than the threshold,
and stop once `maxOut` boxes are selected.  `acc` holds the selected boxes
newest-first. -/
def nmsSelect (thr : ℚ) (maxOut : ℕ) : List Box → List Box → List Box
  | [], acc => acc.reverse
  | b :: rest, acc =>
    if acc.length = maxOut then acc.reverse
    else if acc.all (fun s => decide (iouQ s b ≤ thr)) then
      nmsSelect thr maxOut rest (b :: acc)
    else nmsSelect thr maxOut rest acc

/-- `tf.image.non_max_suppression(boxes, scores, maxOut, thr)` followed by
`tf.gather(boxes, indices)`: the selected boxes in selection order. -/
def tfNonMaxSuppression (boxes : List Box) (maxOut : ℕ) (thr : ℚ) : List Box :=
  nmsSelect thr maxOut boxes []

/-- The per-image body `s_nms` of `s_ProposalLayer.call`: non-max
suppression then zero padding up to `proposal_count` boxes
(`padding = tf.maximum(proposal_count - tf.shape(proposals)[0], 0)`). -/
def sNms (boxes : List Box) (maxOut : ℕ) (thr : ℚ) : List Box :=
  let proposals := tfNonMaxSuppression boxes maxOut thr
  proposals ++ List.replicate (maxOut - proposals.length) zeroBox

/-- Modelled from the spec: the batch-dispatch utility `utils.batch_slice`
(repository code outside `src/`) applies a per-image function independently
to each batch index and restacks the results in the original order.
`s_ProposalLayer.call` dispatches `s_nms` over the batch with it. -/
def sProposalLayerCallNms (batch : List (List Box)) (maxOut : ℕ) (thr : ℚ) :
    List (List Box) :=
  batch.map (fun bs => sNms bs maxOut thr)

/-- The `s_ProposalLayer` constructor state: `__init__` stores
`proposal_count` and `nms_threshold` verbatim (the `config` object is
opaque here). -/
structure SProposalLayer where
  proposal_count : ℤ
  nms_threshold : ℚ
deriving DecidableEq, Repr

/-- `s_ProposalLayer.__init__(proposal_count, nms_threshold)`: three field
assignments, no validation of either argument. -/
def sProposalLayerInit (pc : ℤ) (thr : ℚ) : SProposalLayer := ⟨pc, thr⟩

/-! ## Box-delta application and clipping (`s_apply_box_deltas_graph`,
`s_clip_boxes_graph`), over `ℝ` because of `tf.exp`. -/

/-- A box with real coordinates, for the delta/clip graph. -/
structure BoxR where
  y1 : ℝ
  x1 : ℝ
  y2 : ℝ
  x2 : ℝ

/-- A regression delta `(dy, dx, log(dh), log(dw))`. -/
structure Delta where
  dy : ℝ
  dx : ℝ
  dh : ℝ
  dw : ℝ

/-- `s_apply_box_deltas_graph`: convert to center/size, shift the center by
`delta * size`, scale the size by `exp(delta)`, convert back. -/
noncomputable def s_apply_box_deltas_graph (b : BoxR) (d : Delta) : BoxR :=
  let height := b.y2 - b.y1
  let width := b.x2 - b.x1
  let center_y := b.y1 + 0.5 * height + d.dy * height
  let center_x := b.x1 + 0.5 * width + d.dx * width
  let height := height * Real.exp d.dh
  let width := width * Real.exp d.dw
  let y1 := center_y - 0.5 * height
  let x1 := center_x - 0.5 * width
  let y2 := y1 + height
  let x2 := x1 + width
  ⟨y1, x1, y2, x2⟩

/-- `s_clip_boxes_graph`: clip every coordinate into the window
`(wy1, wx1, wy2, wx2)` by `max(min(v, w_max), w_min)` per axis. -/
noncomputable def s_clip_boxes_graph (b : BoxR) (w : BoxR) : BoxR :=
  ⟨max (min b.y1 w.y2) w.y1, max (min b.x1 w.x2) w.x1,
   max (min b.y2 w.y2) w.y1, max (min b.x2 w.x2) w.x1⟩

/-! ## Pyramid-level assignment (`rpn_mimic_loss_graph`, lines 382-393). -/

/-- `tf.round`: round to the nearest integer, rounding halves to the
nearest even integer (banker's rounding), unlike Mathlib's `round`
which rounds halves up. -/
noncomputable def tfRound (x : ℝ) : ℤ :=
  if Int.fract x = 1 / 2 ∧ Even ⌊x⌋ then ⌊x⌋ else round x

/-- Modelled from the spec: `modellib.log2_graph` (repository code outside
`src/`) is `tf.log(x) / tf.log(2.0)`, the base-2 logarithm used by the
level-assignment formula. -/
noncomputable def log2_graph (x : ℝ) : ℝ := Real.log x / Real.log 2

/-- The pyramid level for a proposal of the given (normalized) area under
the given image area:
`min(5, max(2, 4 + round(log2(sqrt(area) / (224 / sqrt(image_area))))))`.
(`Real.log 0 = 0` is a junk value where TensorFlow produces `-inf`; the
clamp keeps the result in [2,5] either way, and the theorems evaluate the
level only at boxes of positive area, where `ℝ` matches the float
semantics.) -/
noncomputable def roiLevelOfArea (area imgArea : ℝ) : ℤ :=
  min 5 (max 2 (4 + tfRound (log2_graph (Real.sqrt area / (224 / Real.sqrt imgArea)))))

/-- Level assignment for a concrete box: `h = y2 - y1`, `w = x2 - x1`,
level from `sqrt(h * w)` as in lines 382-393. -/
noncomputable def roiLevel (b : Box) (imgH imgW : ℚ) : ℤ :=
  roiLevelOfArea (((b.y2 - b.y1) * (b.x2 - b.x1) : ℚ) : ℝ) ((imgH : ℝ) * (imgW : ℝ))

/-! ## The mimic-loss aggregator (`rpn_mimic_loss_graph`). -/

/-- A TensorFlow float scalar: `some q` for a finite value, `none` for
NaN/Inf.  The mean of an empty tensor is NaN, and NaN propagates. -/
abbrev TFScalar := Option ℚ

/-- Float addition with NaN propagation. -/
def nfAdd : TFScalar → TFScalar → TFScalar
  | some a, some b => some (a + b)
  | _, _ => none

/-- Float division by a constant: NaN stays NaN, and division by zero is
non-finite (0/0 is NaN, q/0 is ±Inf). -/
def nfDiv (a : TFScalar) (c : ℚ) : TFScalar :=
  match a with
  | some q => if c = 0 then none else some (q / c)
  | none => none

/-- A feature-map value function `(image, row, col, channel) ↦ value`. -/
abbrev FMap := ℕ → ℕ → ℕ → ℕ → ℚ

/-- Feature-grid coordinate of a top-left corner:
`tf.cast(tf.floor(v * mapSize), tf.int32)`. -/
def cropFloor (v mapSize : ℚ) : ℤ := ⌊v * mapSize⌋

/-- Feature-grid coordinate of a bottom-right corner:
`tf.cast(tf.ceil(v * mapSize), tf.int32)`. -/
def cropCeil (v mapSize : ℚ) : ℤ := ⌈v * mapSize⌉

/-- One loop-body contribution (lines 426-433):
`tf.reduce_mean(tf.square(s_cropped - t_cropped))` over the crop
`[1, hp, wp, channels]` sliced from student and teacher maps.
`tf.reduce_mean` divides the sum by the element count, so a crop with
zero height or width (element count 0) yields 0/0 = NaN (`none`). -/
def sliceMeanSq (s t : FMap) (channels : ℕ) (img : ℕ) (y1p x1p hp wp : ℤ) : TFScalar :=
  let n := hp.toNat * wp.toNat * channels
  if n = 0 then none
  else
    some ((∑ r ∈ Finset.range hp.toNat, ∑ c ∈ Finset.range wp.toNat,
        ∑ ch ∈ Finset.range channels,
          (s img (y1p.toNat + r) (x1p.toNat + c) ch
            - t img (y1p.toNat + r) (x1p.toNat + c) ch) ^ 2) / n)

/-- The configuration fields read by `rpn_mimic_loss_graph`. -/
structure MimicConfig where
  BATCH_SIZE : ℕ
  TRAIN_ROIS_PER_IMAGE : ℕ
  TOP_DOWN_PYRAMID_SIZE : ℕ
  BACKBONE_STRIDES : Fin 4 → ℚ

/-- `num_boxes_batch = config.BATCH_SIZE * config.TRAIN_ROIS_PER_IMAGE`. -/
def numBoxesBatch (cfg : MimicConfig) : ℕ := cfg.BATCH_SIZE * cfg.TRAIN_ROIS_PER_IMAGE

/-- Row-major enumeration of the `[batch, rois]` box tensor as
`(image index, box)` pairs — the order `tf.where` reports matches. -/
def enumBoxes (boxes : List (List Box)) : List (ℕ × Box) :=
  (boxes.enum.map (fun p => p.2.map (fun b => (p.1, b)))).flatten

/-- `ix = tf.where(tf.equal(roi_level, level))` and the gathers that
follow: the sub-list of `(image index, box)` pairs assigned to `lvl`. -/
noncomputable def levelSubset (boxes : List (List Box)) (imgH imgW : ℚ) (lvl : ℤ) :
    List (ℕ × Box) :=
  (enumBoxes boxes).filter (fun p => decide (roiLevel p.2 imgH imgW = lvl))

/-- The per-level fixed-capacity list: the level subset zero-padded to
`num_boxes_batch` entries (`tf.pad` of `level_boxes` with zero boxes and
of `box_indices` with zeros). -/
noncomputable def paddedEntries (cfg : MimicConfig) (boxes : List (List Box))
    (imgH imgW : ℚ) (lvl : ℤ) : List (ℕ × Box) :=
  let sub := levelSubset boxes imgH imgW lvl
  sub ++ List.replicate (numBoxesBatch cfg - sub.length) (0, zeroBox)

/-- The `tf.while_loop` of lines 421-436 for one pyramid level: starting
from `0.`, accumulate the mean squared crop difference of every entry of
the fixed-capacity padded list.  `map_h = image_shape[0] / stride`,
`map_w = image_shape[1] / stride`.  For a shape-conformant box tensor
(at most `BATCH_SIZE * TRAIN_ROIS_PER_IMAGE` boxes, as the `[batch,
TRAIN_ROIS_PER_IMAGE, 4]` input guarantees) the padded list has exactly
`num_boxes_batch` entries, matching the loop bound `idx < num_boxes_batch`. -/
noncomputable def levelLoss (cfg : MimicConfig) (smap tmap : FMap) (stride : ℚ)
    (boxes : List (List Box)) (imgH imgW : ℚ) (lvl : ℤ) : TFScalar :=
  let mh := imgH / stride
  let mw := imgW / stride
  (paddedEntries cfg boxes imgH imgW lvl).foldl
    (fun acc e =>
      nfAdd acc (sliceMeanSq smap tmap cfg.TOP_DOWN_PYRAMID_SIZE e.1
        (cropFloor e.2.y1 mh) (cropFloor e.2.x1 mw)
        (cropCeil e.2.y2 mh - cropFloor e.2.y1 mh)
        (cropCeil e.2.x2 mw - cropFloor e.2.x1 mw)))
    (some 0)

/-- `rpn_mimic_loss_graph`: accumulate the four per-level while-loop
totals over levels 2..5 (student maps `Q2..Q5` indexed 0..3, teacher maps
`P2..P5`, strides `BACKBONE_STRIDES[0..3]`), then divide by
`2.0 * num_boxes_batch`. -/
noncomputable def rpn_mimic_loss_graph (cfg : MimicConfig) (smaps tmaps : Fin 4 → FMap)
    (boxes : List (List Box)) (imgH imgW : ℚ) : TFScalar :=
  let loss : TFScalar := some 0
  let loss := nfAdd loss (levelLoss cfg (smaps 0) (tmaps 0) (cfg.BACKBONE_STRIDES 0) boxes imgH imgW 2)
  let loss := nfAdd loss (levelLoss cfg (smaps 1) (tmaps 1) (cfg.BACKBONE_STRIDES 1) boxes imgH imgW 3)
  let loss := nfAdd loss (levelLoss cfg (smaps 2) (tmaps 2) (cfg.BACKBONE_STRIDES 2) boxes imgH imgW 4)
  let loss := nfAdd loss (levelLoss cfg (smaps 3) (tmaps 3) (cfg.BACKBONE_STRIDES 3) boxes imgH imgW 5)
  nfDiv loss (2 * (numBoxesBatch cfg : ℚ))

/-- An independent summation of a list of TensorFlow scalars, for stating
that the loss is the (normalized) sum of the four per-level totals. -/
def nfSum (l : List TFScalar) : TFScalar := l.foldr nfAdd (some 0)

/-! ## `MimicMaskRCNN.build`: the image-size configuration check. -/

/-- Python `int(q)` for the nonnegative rationals appearing in the check:
truncation toward zero, i.e. the floor. -/
def pyInt (q : ℚ) : ℤ := ⌊q⌋

/-- The test in `MimicMaskRCNN.build`:
`h / 2 ** 6 != int(h / 2 ** 6) or w / 2 ** 6 != int(w / 2 ** 6)`
(division by `2 ** 6` is exact in binary floating point, so `ℚ` is a
faithful model). -/
def imageSizeRejected (h w : ℕ) : Bool :=
  ((h : ℚ) / 2 ^ 6 != (pyInt ((h : ℚ) / 2 ^ 6) : ℚ)) ||
  ((w : ℚ) / 2 ^ 6 != (pyInt ((w : ℚ) / 2 ^ 6) : ℚ))

/-- The prefix of `MimicMaskRCNN.build` before any graph layer exists: the
mode assertion, then the image-size check, which raises before any input
or backbone layer is constructed.  The constructed graph is abstracted to
`Unit`, since only the check decides the claims about `build`. -/
def mimicMaskRCNNBuild (mode : String) (h w : ℕ) : Except String Unit :=
  if ¬ (mode = "training" ∨ mode = "inference") then .error ("assert mode")
  else if imageSizeRejected h w then
    .error ("Image size must be dividable by 2 at least 6 times")
  else .ok ()

/-! ## Layer names and trainability (`MimicMaskRCNN.train`).

`s_resnet_graph` is, per the source comment, the library's
`resnet_graph` with every layer name carrying a caller prefix; the
teacher backbone is the same structure built with the empty prefix. -/

/-- Named layers created by `s_identity_block(stage, block, prefix)`. -/
def identityBlockNames (pre : String) (stage : ℕ) (block : String) : List String :=
  let convBase := pre ++ "res" ++ toString stage ++ block ++ "_branch"
  let bnBase := pre ++ "bn" ++ toString stage ++ block ++ "_branch"
  [convBase ++ "2a", bnBase ++ "2a", convBase ++ "2b", bnBase ++ "2b",
   convBase ++ "2c", bnBase ++ "2c",
   pre ++ "res" ++ toString stage ++ block ++ "_out"]

/-- Named layers created by `s_conv_block(stage, block, prefix)`:
the identity-block layers plus the strided shortcut conv and its norm. -/
def convBlockNames (pre : String) (stage : ℕ) (block : String) : List String :=
  let convBase := pre ++ "res" ++ toString stage ++ block ++ "_branch"
  let bnBase := pre ++ "bn" ++ toString stage ++ block ++ "_branch"
  [convBase ++ "2a", bnBase ++ "2a", convBase ++ "2b", bnBase ++ "2b",
   convBase ++ "2c", bnBase ++ "2c", convBase ++ "1", bnBase ++ "1",
   pre ++ "res" ++ toString stage ++ block ++ "_out"]

/-- `block_count = {"resnet50": 5, "resnet101": 22}[architecture]`. -/
def resnetBlockCount (arch : String) : ℕ := if arch = "resnet50" then 5 else 22

/-- All named layers of `s_resnet_graph(prefix, architecture)`; stage-4
identity blocks are labelled `chr(98 + i)` for `i < block_count`. -/
def resnetGraphNames (pre arch : String) : List String :=
  [pre ++ "conv1", pre ++ "bn_conv1"]
    ++ convBlockNames pre 2 "a" ++ identityBlockNames pre 2 "b"
    ++ identityBlockNames pre 2 "c"
    ++ convBlockNames pre 3 "a" ++ identityBlockNames pre 3 "b"
    ++ identityBlockNames pre 3 "c" ++ identityBlockNames pre 3 "d"
    ++ convBlockNames pre 4 "a"
    ++ ((List.range (resnetBlockCount arch)).map
        (fun i => identityBlockNames pre 4 (String.singleton (Char.ofNat (98 + i))))).flatten
    ++ convBlockNames pre 5 "a" ++ identityBlockNames pre 5 "b"
    ++ identityBlockNames pre 5 "c"

/-- The teacher feature-pyramid layers built in `MimicMaskRCNN.build`
(lines 516-530), unprefixed. -/
def teacherFpnNames : List String :=
  ["fpn_c5p5", "fpn_p4add", "fpn_p5upsampled", "fpn_c4p4",
   "fpn_p3add", "fpn_p4upsampled", "fpn_c3p3",
   "fpn_p2add", "fpn_p3upsampled", "fpn_c2p2",
   "fpn_p2", "fpn_p3", "fpn_p4", "fpn_p5"]

/-- The student feature-pyramid layers (lines 540-561), all carrying the
`s_` prefix. -/
def studentFpnNames : List String :=
  ["s_fpn_s5q5", "s_fpn_q4add", "s_fpn_q5upsampled", "s_fpn_s4q4",
   "s_fpn_q3add", "s_fpn_q4upsampled", "s_fpn_s3q3",
   "s_fpn_q2add", "s_fpn_q3upsampled", "s_fpn_s2q2",
   "s_fpn_q2", "s_fpn_q3", "s_fpn_q4", "s_fpn_q5", "s_fpn_q6"]

/-- The student RPN, proposal, and transformer layers of the assembled
model (`s_build_rpn_model`, the concatenated outputs, `s_ProposalLayer`,
`build_transformer_layer`). -/
def studentHeadNames : List String :=
  ["s_input_rpn_feature_map", "s_rpn_conv_shared", "s_rpn_class_raw",
   "s_rpn_class_xxx", "s_rpn_bbox_pred", "s_rpn_model",
   "s_rpn_class_logits", "s_rpn_class", "s_rpn_bbox", "s_ROI",
   "s_transformer_input", "s_transformer_conv", "s_transformer_layer"]

/-- Weight-free shared layers of the assembled model: inputs, the anchor
constant, the detection-target layer, and the three loss lambdas. -/
def sharedLayerNames : List String :=
  ["input_image", "input_image_meta", "input_rpn_match", "input_rpn_bbox",
   "input_gt_class_ids", "input_gt_boxes", "input_gt_masks",
   "anchors", "proposal_targets",
   "rpn_class_loss", "rpn_bbox_loss", "rpn_mimic_loss"]

/-- All teacher-owned layers: teacher backbone (empty prefix) plus the
teacher pyramid. -/
def teacherLayerNames (tArch : String) : List String :=
  resnetGraphNames "" tArch ++ teacherFpnNames

/-- All student-owned layers: student backbone (`s_` prefix), student
pyramid, RPN, proposal and transformer layers. -/
def studentLayerNames (sArch : String) : List String :=
  resnetGraphNames "s_" sArch ++ studentFpnNames ++ studentHeadNames

/-- Every named layer of the assembled `mimic_mask_rcnn` model. -/
def mimicModelLayerNames (tArch sArch : String) : List String :=
  sharedLayerNames ++ teacherLayerNames tArch ++ studentLayerNames sArch

/-- The predefined layer-selection table of `MimicMaskRCNN.train`:
`{"all": "s_.*"}`; any other argument is used as a regex verbatim. -/
def trainLayerPattern (layers : String) : String :=
  if layers = "all" then "s_.*" else layers

/-- Modelled from the spec: the training driver's layer selection
(`modellib.MaskRCNN.set_trainable`, repository code outside `src/`) marks
exactly the layers whose names fully match the pattern as trainable, and
`MimicMaskRCNN.train` invokes it before `compile`, so the trainable set is
fixed structurally before optimization.  A name fully matches the regex
`s_.*` iff its first two characters are `s` and `_` (layer names contain
no newlines). -/
def fullmatchSStar (n : String) : Bool :=
  match n.data with
  | 's' :: '_' :: _ => true
  | _ => false

/-- The trainable layer set `MimicMaskRCNN.train` hands to `compile` when
invoked with the predefined selection (`layers="all"` ↦ pattern `s_.*`). -/
def trainableLayerNames (tArch sArch : String) : List String :=
  (mimicModelLayerNames tArch sArch).filter fullmatchSStar

/-! ## Theorems -/

/-- Claim C7, counterexample: constructing `s_ProposalLayer` with a
negative proposal count and an NMS threshold of 2 (outside [0,1]) is NOT
rejected: `__init__` performs no validation and returns a layer carrying
exactly those values, refuting build-time rejection. -/
theorem C7_counterexample_no_build_time_rejection :
    sProposalLayerInit (-1) 2 = ⟨-1, 2⟩ := rfl

/-- Claim C7, amended: constructing the proposal layer performs no
validation at all — every proposal count and NMS threshold, including
non-positive counts and thresholds outside [0,1], is accepted and stored
unchanged; invalid values are only ever seen later, at graph run time. -/
theorem C7_init_stores_arguments_unvalidated :
    ∀ (pc : ℤ) (thr : ℚ),
      (sProposalLayerInit pc thr).proposal_count = pc ∧
      (sProposalLayerInit pc thr).nms_threshold = thr :=
  fun _ _ => ⟨rfl, rfl⟩

theorem pyInt_div_pow_eq_iff_dvd (n : ℕ) :
    ((n : ℚ) / 2 ^ 6 = (pyInt ((n : ℚ) / 2 ^ 6) : ℚ)) ↔ 64 ∣ n := by
  unfold pyInt
  constructor
  · intro h
    have h2 : (n : ℚ) = 64 * (⌊(n : ℚ) / 2 ^ 6⌋ : ℚ) := by
      have h64 : (2 : ℚ) ^ 6 ≠ 0 := by norm_num
      field_simp at h
      linarith [h]
    have h3 : (n : ℤ) = 64 * ⌊(n : ℚ) / 2 ^ 6⌋ := by exact_mod_cast h2
    have h4 : (64 : ℤ) ∣ (n : ℤ) := Dvd.intro _ (by linarith [h3])
    exact_mod_cast h4
  · rintro ⟨k, rfl⟩
    have : ((64 * k : ℕ) : ℚ) / 2 ^ 6 = (k : ℚ) := by push_cast; ring
    rw [this]
    norm_num

theorem imageSizeRejected_iff (h w : ℕ) :
    imageSizeRejected h w = false ↔ 64 ∣ h ∧ 64 ∣ w := by
  unfold imageSizeRejected
  rw [Bool.or_eq_false_iff, bne_eq_false_iff_eq, bne_eq_false_iff_eq,
    pyInt_div_pow_eq_iff_dvd, pyInt_div_pow_eq_iff_dvd]

/-- Claim C8: in both build modes, `MimicMaskRCNN.build` raises the fatal
image-size configuration error exactly when the configured height or
width is not divisible by 64 = 2^6, and it does so before any graph layer
is constructed; for divisible shapes the build proceeds. -/
theorem C8_build_rejects_image_size_not_divisible_by_64 :
    ∀ (h w : ℕ),
      mimicMaskRCNNBuild ("training") h w =
        (if 64 ∣ h ∧ 64 ∣ w then Except.ok ()
         else Except.error ("Image size must be dividable by 2 at least 6 times")) ∧
      mimicMaskRCNNBuild ("inference") h w =
        (if 64 ∣ h ∧ 64 ∣ w then Except.ok ()
         else Except.error ("Image size must be dividable by 2 at least 6 times")) := by
  intro h w
  have hmode1 : ¬ ¬ (("training" : String) = "training" ∨ ("training" : String) = "inference") := by
    simp
  have hmode2 : ¬ ¬ (("inference" : String) = "training" ∨ ("inference" : String) = "inference") := by
    simp
  constructor <;>
  · unfold mimicMaskRCNNBuild
    rw [if_neg (by first | exact hmode1 | exact hmode2)]
    by_cases hd : 64 ∣ h ∧ 64 ∣ w
    · rw [if_pos hd, if_neg]
      simp [(imageSizeRejected_iff h w).2 hd]
    · rw [if_neg hd, if_pos]
      rcases Bool.eq_false_or_eq_true (imageSizeRejected h w) with hb | hb
      · exact hb
      · exact absurd ((imageSizeRejected_iff h w).1 hb) hd

/-- Claim C9: converting a selected proposal's normalized box to integer
feature-grid coordinates (floor of the top-left corner times the map size,
ceiling of the bottom-right corner) yields a crop of positive integer
height and width for every non-degenerate box (`y2 > y1`, `x2 > x1`)
inside the unit window, on feature grids of positive size. -/
theorem C9_floor_ceil_crop_nonempty :
    ∀ (b : Box) (mh mw : ℚ),
      0 < mh → 0 < mw → 0 ≤ b.y1 → 0 ≤ b.x1 → b.y2 ≤ 1 → b.x2 ≤ 1 →
      b.y1 < b.y2 → b.x1 < b.x2 →
      0 < cropCeil b.y2 mh - cropFloor b.y1 mh ∧
      0 < cropCeil b.x2 mw - cropFloor b.x1 mw := by
  intro b mh mw hmh hmw _ _ _ _ hy hx
  constructor
  · have h1 : (cropFloor b.y1 mh : ℚ) ≤ b.y1 * mh := Int.floor_le _
    have h2 : b.y1 * mh < b.y2 * mh := mul_lt_mul_of_pos_right hy hmh
    have h3 : b.y2 * mh ≤ (cropCeil b.y2 mh : ℚ) := Int.le_ceil _
    have : (cropFloor b.y1 mh : ℚ) < (cropCeil b.y2 mh : ℚ) := by linarith
    have hlt : cropFloor b.y1 mh < cropCeil b.y2 mh := by exact_mod_cast this
    omega
  · have h1 : (cropFloor b.x1 mw : ℚ) ≤ b.x1 * mw := Int.floor_le _
    have h2 : b.x1 * mw < b.x2 * mw := mul_lt_mul_of_pos_right hx hmw
    have h3 : b.x2 * mw ≤ (cropCeil b.x2 mw : ℚ) := Int.le_ceil _
    have : (cropFloor b.x1 mw : ℚ) < (cropCeil b.x2 mw : ℚ) := by linarith
    have hlt : cropFloor b.x1 mw < cropCeil b.x2 mw := by exact_mod_cast this
    omega

/-- Witness for C9 at the concrete box (0, 0, 7/32, 1/2) on the stride-4
grid of a 256x256 image (map size 64). -/
theorem C9_floor_ceil_crop_nonempty_witness :
    0 < cropCeil (7 / 32 : ℚ) 64 - cropFloor 0 64 ∧
    0 < cropCeil (1 / 2 : ℚ) 64 - cropFloor 0 64 :=
  C9_floor_ceil_crop_nonempty ⟨0, 0, 7 / 32, 1 / 2⟩ 64 64
    (by norm_num) (by norm_num) le_rfl le_rfl (by norm_num) (by norm_num)
    (by norm_num) (by norm_num)

theorem clip01_nonneg (x : ℝ) : 0 ≤ max (min x 1) 0 := le_max_right _ _

theorem clip01_le_one (x : ℝ) : max (min x 1) 0 ≤ 1 :=
  max_le (min_le_right _ _) zero_le_one

theorem clip01_mono {x y : ℝ} (h : x ≤ y) :
    max (min x 1) 0 ≤ max (min y 1) 0 :=
  max_le_max (min_le_min h le_rfl) le_rfl

/-- Claim C10: starting from a well-formed box (`y1 ≤ y2`, `x1 ≤ x2`) and
arbitrary deltas, applying the regression deltas keeps the box well-formed
(the scaled height/width stay nonnegative since `exp > 0`), and clipping
to the window (0,0,1,1) keeps it well-formed with all four coordinates in
[0,1]. -/
theorem C10_delta_then_clip_preserves_wellformed :
    ∀ (b : BoxR) (d : Delta),
      b.y1 ≤ b.y2 → b.x1 ≤ b.x2 →
      ((s_apply_box_deltas_graph b d).y1 ≤ (s_apply_box_deltas_graph b d).y2 ∧
       (s_apply_box_deltas_graph b d).x1 ≤ (s_apply_box_deltas_graph b d).x2) ∧
      ((s_clip_boxes_graph (s_apply_box_deltas_graph b d) ⟨0, 0, 1, 1⟩).y1 ≤
         (s_clip_boxes_graph (s_apply_box_deltas_graph b d) ⟨0, 0, 1, 1⟩).y2 ∧
       (s_clip_boxes_graph (s_apply_box_deltas_graph b d) ⟨0, 0, 1, 1⟩).x1 ≤
         (s_clip_boxes_graph (s_apply_box_deltas_graph b d) ⟨0, 0, 1, 1⟩).x2 ∧
       0 ≤ (s_clip_boxes_graph (s_apply_box_deltas_graph b d) ⟨0, 0, 1, 1⟩).y1 ∧
       (s_clip_boxes_graph (s_apply_box_deltas_graph b d) ⟨0, 0, 1, 1⟩).y1 ≤ 1 ∧
       0 ≤ (s_clip_boxes_graph (s_apply_box_deltas_graph b d) ⟨0, 0, 1, 1⟩).x1 ∧
       (s_clip_boxes_graph (s_apply_box_deltas_graph b d) ⟨0, 0, 1, 1⟩).x1 ≤ 1 ∧
       0 ≤ (s_clip_boxes_graph (s_apply_box_deltas_graph b d) ⟨0, 0, 1, 1⟩).y2 ∧
       (s_clip_boxes_graph (s_apply_box_deltas_graph b d) ⟨0, 0, 1, 1⟩).y2 ≤ 1 ∧
       0 ≤ (s_clip_boxes_graph (s_apply_box_deltas_graph b d) ⟨0, 0, 1, 1⟩).x2 ∧
       (s_clip_boxes_graph (s_apply_box_deltas_graph b d) ⟨0, 0, 1, 1⟩).x2 ≤ 1) := by
  intro b d hy hx
  have hh : 0 ≤ (b.y2 - b.y1) * Real.exp d.dh :=
    mul_nonneg (sub_nonneg.2 hy) (Real.exp_pos _).le
  have hw : 0 ≤ (b.x2 - b.x1) * Real.exp d.dw :=
    mul_nonneg (sub_nonneg.2 hx) (Real.exp_pos _).le
  have happly :
      (s_apply_box_deltas_graph b d).y1 ≤ (s_apply_box_deltas_graph b d).y2 ∧
      (s_apply_box_deltas_graph b d).x1 ≤ (s_apply_box_deltas_graph b d).x2 := by
    unfold s_apply_box_deltas_graph
    constructor <;> simp only [] <;> linarith
  refine ⟨happly, ?_, ?_, ?_, ?_, ?_, ?_, ?_, ?_, ?_, ?_⟩
  · exact clip01_mono happly.1
  · exact clip01_mono happly.2
  · exact clip01_nonneg _
  · exact clip01_le_one _
  · exact clip01_nonneg _
  · exact clip01_le_one _
  · exact clip01_nonneg _
  · exact clip01_le_one _
  · exact clip01_nonneg _
  · exact clip01_le_one _

/-- Witness for C10 at the unit box with zero deltas. -/
theorem C10_delta_then_clip_preserves_wellformed_witness :
    ((s_apply_box_deltas_graph ⟨0, 0, 1, 1⟩ ⟨0, 0, 0, 0⟩).y1 ≤
       (s_apply_box_deltas_graph ⟨0, 0, 1, 1⟩ ⟨0, 0, 0, 0⟩).y2 ∧
     (s_apply_box_deltas_graph ⟨0, 0, 1, 1⟩ ⟨0, 0, 0, 0⟩).x1 ≤
       (s_apply_box_deltas_graph ⟨0, 0, 1, 1⟩ ⟨0, 0, 0, 0⟩).x2) ∧
    ((s_clip_boxes_graph (s_apply_box_deltas_graph ⟨0, 0, 1, 1⟩ ⟨0, 0, 0, 0⟩) ⟨0, 0, 1, 1⟩).y1 ≤
       (s_clip_boxes_graph (s_apply_box_deltas_graph ⟨0, 0, 1, 1⟩ ⟨0, 0, 0, 0⟩) ⟨0, 0, 1, 1⟩).y2 ∧
     (s_clip_boxes_graph (s_apply_box_deltas_graph ⟨0, 0, 1, 1⟩ ⟨0, 0, 0, 0⟩) ⟨0, 0, 1, 1⟩).x1 ≤
       (s_clip_boxes_graph (s_apply_box_deltas_graph ⟨0, 0, 1, 1⟩ ⟨0, 0, 0, 0⟩) ⟨0, 0, 1, 1⟩).x2 ∧
     0 ≤ (s_clip_boxes_graph (s_apply_box_deltas_graph ⟨0, 0, 1, 1⟩ ⟨0, 0, 0, 0⟩) ⟨0, 0, 1, 1⟩).y1 ∧
     (s_clip_boxes_graph (s_apply_box_deltas_graph ⟨0, 0, 1, 1⟩ ⟨0, 0, 0, 0⟩) ⟨0, 0, 1, 1⟩).y1 ≤ 1 ∧
     0 ≤ (s_clip_boxes_graph (s_apply_box_deltas_graph ⟨0, 0, 1, 1⟩ ⟨0, 0, 0, 0⟩) ⟨0, 0, 1, 1⟩).x1 ∧
     (s_clip_boxes_graph (s_apply_box_deltas_graph ⟨0, 0, 1, 1⟩ ⟨0, 0, 0, 0⟩) ⟨0, 0, 1, 1⟩).x1 ≤ 1 ∧
     0 ≤ (s_clip_boxes_graph (s_apply_box_deltas_graph ⟨0, 0, 1, 1⟩ ⟨0, 0, 0, 0⟩) ⟨0, 0, 1, 1⟩).y2 ∧
     (s_clip_boxes_graph (s_apply_box_deltas_graph ⟨0, 0, 1, 1⟩ ⟨0, 0, 0, 0⟩) ⟨0, 0, 1, 1⟩).y2 ≤ 1 ∧
     0 ≤ (s_clip_boxes_graph (s_apply_box_deltas_graph ⟨0, 0, 1, 1⟩ ⟨0, 0, 0, 0⟩) ⟨0, 0, 1, 1⟩).x2 ∧
     (s_clip_boxes_graph (s_apply_box_deltas_graph ⟨0, 0, 1, 1⟩ ⟨0, 0, 0, 0⟩) ⟨0, 0, 1, 1⟩).x2 ≤ 1) :=
  C10_delta_then_clip_preserves_wellformed ⟨0, 0, 1, 1⟩ ⟨0, 0, 0, 0⟩
    zero_le_one zero_le_one

theorem interQ_comm (a b : Box) : interQ a b = interQ b a := by
  unfold interQ
  rw [min_comm a.y2, max_comm a.y1, min_comm a.x2, max_comm a.x1]

theorem iouQ_comm (a b : Box) : iouQ a b = iouQ b a := by
  unfold iouQ
  by_cases ha : areaQ a ≤ 0 <;> by_cases hb : areaQ b ≤ 0
  · simp [ha, hb]
  · simp [ha, hb]
  · simp [ha, hb]
  · simp [ha, hb, interQ_comm a b]
    ring_nf

theorem nmsSelect_length_le (thr : ℚ) (maxOut : ℕ) :
    ∀ (rem acc : List Box), acc.length ≤ maxOut →
      (nmsSelect thr maxOut rem acc).length ≤ maxOut := by
  intro rem
  induction rem with
  | nil => intro acc h; simpa [nmsSelect] using h
  | cons b rest ih =>
    intro acc h
    unfold nmsSelect
    by_cases hfull : acc.length = maxOut
    · rw [if_pos hfull]
      simp [hfull]
    · rw [if_neg hfull]
      by_cases hkeep : acc.all (fun s => decide (iouQ s b ≤ thr))
      · rw [if_pos hkeep]
        exact ih (b :: acc) (by simp; omega)
      · rw [if_neg hkeep]
        exact ih acc h

theorem nmsSelect_pairwise (thr : ℚ) (maxOut : ℕ) :
    ∀ (rem acc : List Box), acc.Pairwise (fun x y => iouQ y x ≤ thr) →
      (nmsSelect thr maxOut rem acc).Pairwise (fun a b => iouQ a b ≤ thr) := by
  intro rem
  induction rem with
  | nil =>
    intro acc h
    exact List.pairwise_reverse.2 h
  | cons b rest ih =>
    intro acc h
    unfold nmsSelect
    by_cases hfull : acc.length = maxOut
    · rw [if_pos hfull]
      exact List.pairwise_reverse.2 h
    · rw [if_neg hfull]
      by_cases hkeep : acc.all (fun s => decide (iouQ s b ≤ thr))
      · rw [if_pos hkeep]
        refine ih (b :: acc) (List.Pairwise.cons ?_ h)
        intro s hs
        have := List.all_eq_true.1 hkeep s hs
        exact of_decide_eq_true this
      · rw [if_neg hkeep]
        exact ih acc h

theorem tfNonMaxSuppression_length_le (boxes : List Box) (maxOut : ℕ) (thr : ℚ) :
    (tfNonMaxSuppression boxes maxOut thr).length ≤ maxOut :=
  nmsSelect_length_le thr maxOut boxes [] (by simp)

/-- Claim C6, amended: for every input batch the proposal layer emits
exactly `proposal_count` boxes per image (the per-image `s_nms` output has
length `proposal_count`, and the batch map preserves the batch size); when
fewer boxes survive NMS the tail consists of all-zero padding boxes; and
surviving boxes pairwise have IoU AT MOST the configured threshold
(TensorFlow suppresses only boxes whose IoU is strictly greater than the
threshold, so equality can survive — the strict bound of the original
claim is refuted by the counterexample below). -/
theorem C6_proposal_output_shape_padding_iou :
    ∀ (batch : List (List Box)) (boxes : List Box) (maxOut : ℕ) (thr : ℚ),
      (sNms boxes maxOut thr).length = maxOut ∧
      (∀ k, (tfNonMaxSuppression boxes maxOut thr).length ≤ k →
        (sNms boxes maxOut thr).getD k zeroBox = zeroBox) ∧
      (∀ a, a ∈ tfNonMaxSuppression boxes maxOut thr →
        ∀ b, b ∈ tfNonMaxSuppression boxes maxOut thr → a ≠ b → iouQ a b ≤ thr) ∧
      (sProposalLayerCallNms batch maxOut thr).length = batch.length ∧
      (∀ img, img ∈ sProposalLayerCallNms batch maxOut thr → img.length = maxOut) := by
  intro batch boxes maxOut thr
  have hlen := tfNonMaxSuppression_length_le boxes maxOut thr
  have hsnms : (sNms boxes maxOut thr).length = maxOut := by
    unfold sNms
    simp only [List.length_append, List.length_replicate]
    omega
  refine ⟨hsnms, ?_, ?_, ?_, ?_⟩
  · intro k hk
    unfold sNms
    rcases Nat.lt_or_ge k maxOut with hkm | hkm
    · rw [List.getD_eq_getElem?_getD, List.getElem?_append_right hk,
        List.getElem?_replicate]
      rw [if_pos (by omega)]
      rfl
    · rw [List.getD_eq_getElem?_getD, List.getElem?_eq_none (by
        simp only [List.length_append, List.length_replicate]; omega)]
      rfl
  · have hpw : (tfNonMaxSuppression boxes maxOut thr).Pairwise
        (fun a b => iouQ a b ≤ thr) :=
      nmsSelect_pairwise thr maxOut boxes [] List.Pairwise.nil
    have hsymm : Symmetric (fun a b : Box => iouQ a b ≤ thr) := by
      intro a b hab
      rw [iouQ_comm]
      exact hab
    intro a ha b hb hne
    exact hpw.forall hsymm ha hb hne
  · unfold sProposalLayerCallNms
    exact List.length_map _ _
  · intro img himg
    unfold sProposalLayerCallNms at himg
    rcases List.mem_map.1 himg with ⟨bs, _, rfl⟩
    unfold sNms
    simp only [List.length_append, List.length_replicate]
    have := tfNonMaxSuppression_length_le bs maxOut thr
    omega

set_option maxHeartbeats 1000000 in
/-- Witness for C6 (amended) at a concrete batch: two stacked boxes, a
proposal count of 3 and threshold 1/2. -/
theorem C6_proposal_output_shape_padding_iou_witness :
    (sNms [Box.mk 0 0 1 1, Box.mk 0 0 1 (1 / 2)] 3 (1 / 2)).length = 3 ∧
    (sNms [Box.mk 0 0 1 1, Box.mk 0 0 1 (1 / 2)] 3 (1 / 2)).getD 2 zeroBox = zeroBox ∧
    iouQ (Box.mk 0 0 1 1) (Box.mk 0 0 1 (1 / 2)) ≤ 1 / 2 ∧
    (sProposalLayerCallNms [[Box.mk 0 0 1 1, Box.mk 0 0 1 (1 / 2)]] 3 (1 / 2)).length = 1 := by
  have h1 := C6_proposal_output_shape_padding_iou []
    [Box.mk 0 0 1 1, Box.mk 0 0 1 (1 / 2)] 3 (1 / 2)
  have h2 := C6_proposal_output_shape_padding_iou
    [[Box.mk 0 0 1 1, Box.mk 0 0 1 (1 / 2)]] [] 3 (1 / 2)
  refine ⟨h1.1, h1.2.1 2 ?_,
    h1.2.2.1 (Box.mk 0 0 1 1) ?_ (Box.mk 0 0 1 (1 / 2)) ?_ ?_, h2.2.2.2.1⟩
  · norm_num [tfNonMaxSuppression, nmsSelect, iouQ, areaQ, interQ]
  · norm_num [tfNonMaxSuppression, nmsSelect, iouQ, areaQ, interQ]
  · norm_num [tfNonMaxSuppression, nmsSelect, iouQ, areaQ, interQ]
  · norm_num [Box.mk.injEq]

/-- Claim C6, counterexample to the strict IoU bound: with threshold 1/2,
the boxes (0,0,1,1) and (0,0,1,1/2) have IoU exactly 1/2, which TensorFlow
NMS does not suppress (it suppresses only IoU strictly above the
threshold), so both survive while their IoU is NOT strictly below the
threshold. -/
theorem C6_counterexample_iou_equal_threshold_survives :
    tfNonMaxSuppression [Box.mk 0 0 1 1, Box.mk 0 0 1 (1 / 2)] 5 (1 / 2) =
      [Box.mk 0 0 1 1, Box.mk 0 0 1 (1 / 2)] ∧
    iouQ (Box.mk 0 0 1 1) (Box.mk 0 0 1 (1 / 2)) = 1 / 2 ∧
    ¬ iouQ (Box.mk 0 0 1 1) (Box.mk 0 0 1 (1 / 2)) < 1 / 2 := by
  refine ⟨?_, ?_, ?_⟩
  · norm_num [tfNonMaxSuppression, nmsSelect, iouQ, areaQ, interQ]
  · norm_num [iouQ, areaQ, interQ]
  · norm_num [iouQ, areaQ, interQ]

theorem round_le_round_of_le {x y : ℝ} (h : x ≤ y) : round x ≤ round y := by
  rw [round_eq, round_eq]
  exact Int.floor_mono (by linarith)

theorem floor_le_round (x : ℝ) : ⌊x⌋ ≤ round x := by
  rw [round_eq]
  exact Int.floor_mono (by linarith)

theorem tfRound_mono {x y : ℝ} (h : x ≤ y) : tfRound x ≤ tfRound y := by
  unfold tfRound
  by_cases hx : Int.fract x = 1 / 2 ∧ Even ⌊x⌋ <;>
    by_cases hy : Int.fract y = 1 / 2 ∧ Even ⌊y⌋
  · rw [if_pos hx, if_pos hy]
    exact Int.floor_mono h
  · rw [if_pos hx, if_neg hy]
    exact le_trans (Int.floor_mono h) (floor_le_round y)
  · rw [if_neg hx, if_pos hy]
    have hyv : (⌊y⌋ : ℝ) + 1 / 2 = y := by
      have := Int.floor_add_fract y
      rw [hy.1] at this
      linarith
    have hne : x ≠ y := by
      intro hxy
      apply hx
      rw [hxy]
      exact hy
    have hlt : x < y := lt_of_le_of_ne h hne
    have hfl : round x < ⌊y⌋ + 1 := by
      rw [round_eq]
      have : x + 1 / 2 < ((⌊y⌋ + 1 : ℤ) : ℝ) := by push_cast; linarith
      exact Int.floor_lt.2 this
    omega
  · rw [if_neg hx, if_neg hy]
    exact round_le_round_of_le h

/-- Claim C5: the pyramid level of a proposal is exactly
`min(5, max(2, 4 + round(log2(sqrt(area) / (224 / sqrt(image_area))))))`,
it always lies in {2,3,4,5}, and it is monotone in (positive) proposal
area under a fixed image area. -/
theorem C5_roi_level_formula_bounds_monotone :
    (∀ (b : Box) (imgH imgW : ℚ),
      roiLevel b imgH imgW =
        min 5 (max 2 (4 + tfRound (log2_graph
          (Real.sqrt (((b.y2 - b.y1) * (b.x2 - b.x1) : ℚ) : ℝ) /
            (224 / Real.sqrt ((imgH : ℝ) * (imgW : ℝ))))))) ∧
      2 ≤ roiLevel b imgH imgW ∧ roiLevel b imgH imgW ≤ 5) ∧
    (∀ (imgArea a1 a2 : ℝ), 0 < imgArea → 0 < a1 → a1 ≤ a2 →
      roiLevelOfArea a1 imgArea ≤ roiLevelOfArea a2 imgArea) := by
  constructor
  · intro b imgH imgW
    refine ⟨rfl, ?_, ?_⟩
    · exact le_min (by norm_num) (le_max_left _ _)
    · exact min_le_left _ _
  · intro imgArea a1 a2 himg h1 h12
    unfold roiLevelOfArea
    have hsi : 0 < Real.sqrt imgArea := Real.sqrt_pos.2 himg
    have hc : (0 : ℝ) < 224 / Real.sqrt imgArea := by positivity
    have hs1 : 0 < Real.sqrt a1 := Real.sqrt_pos.2 h1
    have hsle : Real.sqrt a1 ≤ Real.sqrt a2 := Real.sqrt_le_sqrt h12
    have hx1 : 0 < Real.sqrt a1 / (224 / Real.sqrt imgArea) := by positivity
    have hxle : Real.sqrt a1 / (224 / Real.sqrt imgArea) ≤
        Real.sqrt a2 / (224 / Real.sqrt imgArea) := by gcongr
    have hlog : log2_graph (Real.sqrt a1 / (224 / Real.sqrt imgArea)) ≤
        log2_graph (Real.sqrt a2 / (224 / Real.sqrt imgArea)) :=
      Real.logb_le_logb_of_le one_lt_two hx1 hxle
    have hr := tfRound_mono hlog
    exact min_le_min le_rfl (max_le_max le_rfl (by omega))

/-- Witness for C5: bounds at the unit box on a 256x256 image, and
monotonicity between areas 1 and 4 under image area 65536. -/
theorem C5_roi_level_formula_bounds_monotone_witness :
    (2 ≤ roiLevel ⟨0, 0, 1, 1⟩ 256 256 ∧ roiLevel ⟨0, 0, 1, 1⟩ 256 256 ≤ 5) ∧
    roiLevelOfArea 1 65536 ≤ roiLevelOfArea 4 65536 :=
  ⟨⟨(C5_roi_level_formula_bounds_monotone.1 ⟨0, 0, 1, 1⟩ 256 256).2.1,
    (C5_roi_level_formula_bounds_monotone.1 ⟨0, 0, 1, 1⟩ 256 256).2.2⟩,
   C5_roi_level_formula_bounds_monotone.2 65536 1 4
     (by norm_num) (by norm_num) (by norm_num)⟩

theorem nfAdd_fold4 (a b c d : TFScalar) :
    nfAdd (nfAdd (nfAdd (nfAdd (some 0) a) b) c) d =
      nfAdd a (nfAdd b (nfAdd c (nfAdd d (some 0)))) := by
  cases a <;> cases b <;> cases c <;> cases d <;> (simp [nfAdd]; try ring)

/-- Claim C4: the final mimic loss is the sum of the four per-level
accumulated totals divided by exactly `2 * BATCH_SIZE *
TRAIN_ROIS_PER_IMAGE` — the normalizer is this fixed constant, independent
of how many proposals actually contributed. -/
theorem C4_loss_is_sum_of_level_totals_over_fixed_normalizer :
    ∀ (cfg : MimicConfig) (smaps tmaps : Fin 4 → FMap)
      (boxes : List (List Box)) (imgH imgW : ℚ),
      rpn_mimic_loss_graph cfg smaps tmaps boxes imgH imgW =
        nfDiv (nfSum
          [levelLoss cfg (smaps 0) (tmaps 0) (cfg.BACKBONE_STRIDES 0) boxes imgH imgW 2,
           levelLoss cfg (smaps 1) (tmaps 1) (cfg.BACKBONE_STRIDES 1) boxes imgH imgW 3,
           levelLoss cfg (smaps 2) (tmaps 2) (cfg.BACKBONE_STRIDES 2) boxes imgH imgW 4,
           levelLoss cfg (smaps 3) (tmaps 3) (cfg.BACKBONE_STRIDES 3) boxes imgH imgW 5])
          (2 * (cfg.BATCH_SIZE : ℚ) * (cfg.TRAIN_ROIS_PER_IMAGE : ℚ)) := by
  intro cfg smaps tmaps boxes imgH imgW
  unfold rpn_mimic_loss_graph nfSum
  simp only [List.foldr]
  rw [nfAdd_fold4]
  congr 1
  unfold numBoxesBatch
  push_cast
  ring

theorem nfAdd_none_left (y : TFScalar) : nfAdd none y = none := rfl

theorem nfAdd_none_right (x : TFScalar) : nfAdd x none = none := by
  cases x <;> rfl

theorem nfDiv_none (c : ℚ) : nfDiv none c = none := rfl

/-- The all-zero feature map, used to evaluate the loss at inputs where
student and teacher maps are identical. -/
def zeroFMap : FMap := fun _ _ _ _ => 0

/-- Concrete configuration: batch size 1, one training ROI per image,
pyramid depth 256, backbone strides (4, 8, 16, 32). -/
def cfgOne : MimicConfig := ⟨1, 1, 256, ![4, 8, 16, 32]⟩

/-- Claim C2, failing evaluation: the all-zero padding box maps to the
degenerate crop coordinates `floor(0) = ceil(0) = 0`, giving a crop of
height and width 0, whose `tf.reduce_mean` is the mean of zero elements —
NaN, not zero — and adding it to the running total poisons the
accumulator instead of contributing zero.  The mean is not guarded. -/
theorem C2_degenerate_crop_contributes_nan_not_zero :
    (cropCeil (0 : ℚ) 64 - cropFloor (0 : ℚ) 64 = 0) ∧
    sliceMeanSq zeroFMap zeroFMap 256 0 0 0 0 0 = none ∧
    nfAdd (some 0) (sliceMeanSq zeroFMap zeroFMap 256 0 0 0 0 0) = none := by
  refine ⟨?_, rfl, rfl⟩
  unfold cropCeil cropFloor
  norm_num

theorem roiLevel_unit_box_256 : roiLevel (Box.mk 0 0 1 1) 256 256 = 4 := by
  have hcast : roiLevel (Box.mk 0 0 1 1) 256 256 = roiLevelOfArea 1 65536 := by
    unfold roiLevel
    norm_num
  rw [hcast]
  unfold roiLevelOfArea
  have hsq : Real.sqrt (65536 : ℝ) = 256 := by
    rw [show (65536 : ℝ) = 256 ^ 2 by norm_num]
    exact Real.sqrt_sq (by norm_num)
  rw [hsq, Real.sqrt_one]
  have harg : (1 : ℝ) / (224 / 256) = 8 / 7 := by norm_num
  rw [harg]
  have hlogb : log2_graph (8 / 7 : ℝ) = Real.logb 2 (8 / 7) := rfl
  have h0 : 0 ≤ Real.logb 2 (8 / 7 : ℝ) := Real.logb_nonneg one_lt_two (by norm_num)
  have h12 : Real.logb 2 (8 / 7 : ℝ) < 1 / 2 := by
    rw [Real.logb_lt_iff_lt_rpow one_lt_two (by norm_num)]
    rw [← Real.sqrt_eq_rpow]
    rw [Real.lt_sqrt (by norm_num)]
    norm_num
  have htf : tfRound (log2_graph (8 / 7 : ℝ)) = 0 := by
    unfold tfRound
    rw [hlogb]
    rw [if_neg, round_eq_zero_iff.2 ⟨by linarith, h12⟩]
    · rintro ⟨hfr, -⟩
      rw [Int.fract_eq_self.2 ⟨h0, lt_trans h12 (by norm_num)⟩] at hfr
      exact absurd hfr (ne_of_lt h12)
  rw [htf]
  decide

theorem levelLoss_unit_box_level2_none :
    levelLoss cfgOne zeroFMap zeroFMap 4 [[Box.mk 0 0 1 1]] 256 256 2 = none := by
  unfold levelLoss paddedEntries levelSubset enumBoxes numBoxesBatch
  simp [cfgOne, roiLevel_unit_box_256, zeroBox, sliceMeanSq, nfAdd,
    cropFloor, cropCeil]

/-- Claim C3, failing evaluation: with batch size 1, one ROI slot, a
256x256 image and IDENTICAL student and teacher feature maps, the mimic
loss evaluates to NaN (`none`), not zero: the single proposal is assigned
to level 4, so level 2 pads its empty subset with an all-zero box whose
empty crop makes `tf.reduce_mean` produce NaN, which propagates through
the running sum and the final division.  The loss is neither non-negative
nor zero on identical maps. -/
theorem C3_identical_maps_loss_evaluates_to_nan :
    rpn_mimic_loss_graph cfgOne (fun _ => zeroFMap) (fun _ => zeroFMap)
      [[Box.mk 0 0 1 1]] 256 256 = none := by
  unfold rpn_mimic_loss_graph
  rw [show cfgOne.BACKBONE_STRIDES 0 = 4 from rfl]
  rw [levelLoss_unit_box_level2_none]
  simp only [nfAdd_none_right, nfAdd_none_left, nfDiv_none]

/-- Claim C1: under the predefined layer selection of
`MimicMaskRCNN.train` (`layers="all"`, mapped to the pattern `s_.*` and
applied by `set_trainable` before `compile`), the trainable layer set
contains only student-side layers (every trainable name matches `s_.*`
and belongs to the student set), and every teacher backbone and teacher
pyramid layer is excluded, for both supported architectures on either
side.  The exclusion is structural: it is a property of the layer-name
sets fixed at assembly time, not of any gradient manipulation. -/
theorem C1_trainable_set_is_student_only :
    ∀ (tArch sArch : String),
      (tArch = "resnet50" ∨ tArch = "resnet101") →
      (sArch = "resnet50" ∨ sArch = "resnet101") →
      trainLayerPattern ("all") = "s_.*" ∧
      (∀ n, n ∈ trainableLayerNames tArch sArch → fullmatchSStar n = true) ∧
      (∀ n, n ∈ teacherLayerNames tArch → n ∉ trainableLayerNames tArch sArch) ∧
      (∀ n, n ∈ trainableLayerNames tArch sArch → n ∈ studentLayerNames sArch) := by
  intro tArch sArch ht hs
  have hT : (teacherLayerNames tArch).all (fun n => !(fullmatchSStar n)) = true := by
    rcases ht with h | h <;> subst h <;> decide
  have hSh : sharedLayerNames.all (fun n => !(fullmatchSStar n)) = true := by decide
  refine ⟨rfl, ?_, ?_, ?_⟩
  · intro n hn
    exact (List.mem_filter.1 hn).2
  · intro n hnT hnTr
    have hm := (List.mem_filter.1 hnTr).2
    have hf := List.all_eq_true.1 hT n hnT
    rw [hm] at hf
    exact absurd hf (by decide)
  · intro n hn
    rcases List.mem_filter.1 hn with ⟨hmem, hm⟩
    unfold mimicModelLayerNames at hmem
    rcases List.mem_append.1 hmem with h1 | h2
    · rcases List.mem_append.1 h1 with hsh | hte
      · have hf := List.all_eq_true.1 hSh n hsh
        rw [hm] at hf
        exact absurd hf (by decide)
      · have hf := List.all_eq_true.1 hT n hte
        rw [hm] at hf
        exact absurd hf (by decide)
    · exact h2

/-- Witness for C1 with teacher resnet101 and student resnet50: the
teacher pyramid layer `fpn_c5p5` and the teacher backbone layer `conv1`
are not in the trainable set, and the predefined selection maps to the
pattern `s_.*`. -/
theorem C1_trainable_set_is_student_only_witness :
    ("fpn_c5p5" ∉ trainableLayerNames ("resnet101") ("resnet50")) ∧
    ("conv1" ∉ trainableLayerNames ("resnet101") ("resnet50")) ∧
    trainLayerPattern ("all") = "s_.*" :=
  ⟨(C1_trainable_set_is_student_only ("resnet101") ("resnet50")
      (Or.inr rfl) (Or.inl rfl)).2.2.1 ("fpn_c5p5") (by decide),
   (C1_trainable_set_is_student_only ("resnet101") ("resnet50")
      (Or.inr rfl) (Or.inl rfl)).2.2.1 ("conv1") (by decide),
   (C1_trainable_set_is_student_only ("resnet101") ("resnet50")
      (Or.inr rfl) (Or.inl rfl)).1⟩

end MimicRCNN
